import Mathlib

/-!
Shallow embedding of the M5Stack serial protocol engine:
frame encoding/decoding with CRC16 (ProtocolHandler.ts), the
single-flight command channel (SerialConnection.ts), bounded retry
(sendCommandWithRetry), chunked file upload (FileTransfer.ts) and the
executeCode response mapping (DeviceManager.ts).

Bytes are modelled as `Nat` values < 256 (JS `Buffer` entries), byte
buffers as `List Nat`, and JS strings as `List Char`.
-/

namespace M5Stack

/-! ## ProtocolHandler.ts -/

/-- The 16-entry CRC table (`CRC_TABLE` in ProtocolHandler.ts). -/
def CRC_TABLE : List Nat :=
  [0x0000, 0xcc01, 0xd801, 0x1400, 0xf001, 0x3c00, 0x2800, 0xe401,
   0xa001, 0x6c00, 0x7800, 0xb401, 0x5000, 0x9c01, 0x8801, 0x4400]

/-- One iteration of the loop body of `calculateCrc`: the low nibble of
`ch` is folded in, then the high nibble. -/
def crcStep (crc ch : Nat) : Nat :=
  let crc1 := CRC_TABLE.getD ((ch ^^^ crc) &&& 15) 0 ^^^ (crc >>> 4)
  CRC_TABLE.getD (((ch >>> 4) ^^^ crc1) &&& 15) 0 ^^^ (crc1 >>> 4)

/-- `calculateCrc(data)`: table-driven CRC16 with initial value 0xffff. -/
def calculateCrc (data : List Nat) : Nat :=
  data.foldl crcStep 0xffff

/-- `DEFAULT_CONFIG.frameDelimiters.header` = `[0xaa, 0xab, 0xaa]`. -/
def headerBytes : List Nat := [0xaa, 0xab, 0xaa]

/-- `DEFAULT_CONFIG.frameDelimiters.footer` = `[0xab, 0xcc, 0xab]`. -/
def footerBytes : List Nat := [0xab, 0xcc, 0xab]

/-- JS `buffer.slice(s, e)` for `0 ≤ s ≤ e` (clamped at the end). -/
def bufSlice (l : List Nat) (s e : Nat) : List Nat := (l.drop s).take (e - s)

/-- `createCommandBuffer(command, data)`: one command byte followed by the
data bytes.  `Buffer.from([command])` stores `command` modulo 256. -/
def createCommandBuffer (command : Nat) (data : List Nat) : List Nat :=
  command % 256 :: data

/-- `createFrame(commandBuffer)`: header, 1-byte length, payload, 2-byte
big-endian CRC16, footer.  Each byte written through `Buffer.from` is
reduced modulo 256. -/
def createFrame (commandBuffer : List Nat) : List Nat :=
  let crc := calculateCrc commandBuffer
  headerBytes ++ [commandBuffer.length % 256] ++ commandBuffer ++
    [(crc >>> 8) % 256, (crc &&& 0xff) % 256] ++ footerBytes

/-- `isFrameComplete(buffer)`: at least 8 bytes, header at the start and
footer in the last 3 positions (`buffer.slice(buffer.length - 3)`). -/
def isFrameComplete (buffer : List Nat) : Bool :=
  if buffer.length < 8 then false
  else if buffer.take 3 ≠ headerBytes then false
  else if buffer.drop (buffer.length - 3) ≠ footerBytes then false
  else true

/-- The `ProtocolFrame` interface from types/index.ts. -/
structure ProtocolFrame where
  header : List Nat
  length : Nat
  command : Nat
  data : List Nat
  crc : Nat
  footer : List Nat
  deriving DecidableEq, Repr

/-- `parseFrame(buffer)`: `null` when the frame is incomplete or the CRC
check fails, otherwise the decoded frame.  `data[0]` on an empty `data`
slice is modelled with default 0; this case is unreachable for frames
produced by `createFrame ∘ createCommandBuffer`, whose payload always
holds at least the command byte. -/
def parseFrame (buffer : List Nat) : Option ProtocolFrame :=
  if !isFrameComplete buffer then none
  else
    let length := buffer.getD 3 0
    let dataStart := 4
    let dataEnd := dataStart + length
    let data := bufSlice buffer dataStart dataEnd
    let crcReceived := (buffer.getD dataEnd 0) <<< 8 ||| buffer.getD (dataEnd + 1) 0
    let commandData := bufSlice buffer 4 dataEnd
    let crcCalculated := calculateCrc commandData
    if crcReceived ≠ crcCalculated then none
    else
      some { header := buffer.take 3
             length := length
             command := data.headD 0
             data := data.drop 1
             crc := crcReceived
             footer := buffer.drop (buffer.length - 3) }

/-- Errors raised by `extractResponseData`. -/
inductive ExtractError where
  | incompleteFrame
  | nonzeroStatus (status : Nat)
  deriving DecidableEq, Repr

/-- `extractResponseData(buffer)`: requires a complete frame, a zero
status byte at position 4, then returns `buffer.slice(5, -5)`. -/
def extractResponseData (buffer : List Nat) : Except ExtractError (List Nat) :=
  if !isFrameComplete buffer then .error .incompleteFrame
  else if buffer.getD 4 0 ≠ 0 then .error (.nonzeroStatus (buffer.getD 4 0))
  else .ok ((buffer.take (buffer.length - 5)).drop 5)

/-! ## SerialConnection.ts: the command channel -/

/-- The error classes thrown by the channel, by kind. -/
inductive ChanError where
  | communication
  | timeout
  | deviceBusy
  deriving DecidableEq, Repr

/-- A settlement of the caller's pending promise. -/
inductive PromiseEvent where
  | resolved (data : List Nat)
  | rejected (e : ChanError)
  deriving DecidableEq, Repr

/-- The mutable fields of `BaseSerialConnection` that the command path
touches.  `currentResolve`/`currentReject` record whether the promise
handlers are set (`undefined` in JS ↦ `false`); `commandTimeout` records
whether the timer handle is set. -/
structure ChanState where
  isConnected : Bool
  isBusy : Bool
  receivedBuffer : List Nat
  currentResolve : Bool
  currentReject : Bool
  commandTimeout : Bool
  deriving DecidableEq, Repr

/-- `clearCommandState()`: clears busy, the accumulator, the timer and
both promise handlers. -/
def clearCommandState (s : ChanState) : ChanState :=
  { s with isBusy := false, receivedBuffer := [],
           commandTimeout := false, currentResolve := false, currentReject := false }

/-- `handleCommandSuccess(response)`: first `clearCommandState()`, then
`if (this.currentResolve) this.currentResolve(response)`.  The returned
event list holds the promise settlements performed. -/
def handleCommandSuccess (s : ChanState) (response : List Nat) :
    ChanState × List PromiseEvent :=
  let s1 := clearCommandState s
  if s1.currentResolve then (s1, [.resolved response]) else (s1, [])

/-- `handleCommandError(error)`: first `clearCommandState()`, then
`if (this.currentReject) this.currentReject(error)`. -/
def handleCommandError (s : ChanState) (e : ChanError) :
    ChanState × List PromiseEvent :=
  let s1 := clearCommandState s
  if s1.currentReject then (s1, [.rejected e]) else (s1, [])

/-- `handleCommandTimeout()`: delegates to `handleCommandError` with a
`TimeoutError`. -/
def handleCommandTimeout (s : ChanState) : ChanState × List PromiseEvent :=
  handleCommandError s .timeout

/-- `processReceivedFrame()`: extract the response data; on success build
the `CommandResponse` and call `handleCommandSuccess`, otherwise call
`handleCommandError` with a `CommunicationError`. -/
def processReceivedFrame (s : ChanState) : ChanState × List PromiseEvent :=
  match extractResponseData s.receivedBuffer with
  | .ok d => handleCommandSuccess s d
  | .error _ => handleCommandError s .communication

/-- `onDataReceived(chunk)`: append to the accumulator; when
`isFrameComplete` holds, process the frame. -/
def onDataReceived (s : ChanState) (chunk : List Nat) :
    ChanState × List PromiseEvent :=
  let s1 := { s with receivedBuffer := s.receivedBuffer ++ chunk }
  if isFrameComplete s1.receivedBuffer then processReceivedFrame s1 else (s1, [])

/-- The `Command` record (code + data bytes). -/
structure Command where
  code : Nat
  data : List Nat
  deriving DecidableEq, Repr

/-- Result of one `sendCommand` entry: the synchronous outcome, the
channel state after the entry ran, and the byte buffers written to the
transport. -/
structure SendOutcome where
  result : Except ChanError Unit
  next : ChanState
  writes : List (List Nat)
  deriving Repr

/-- `sendCommand(command)` up to the point where the channel awaits the
response: `CommunicationError` when not connected, `DeviceBusyError`
when busy — in both cases before anything is written — otherwise the
busy/handler/timer state is installed, the accumulator cleared, and the
encoded frame written to the transport. -/
def sendCommand (s : ChanState) (cmd : Command) : SendOutcome :=
  if !s.isConnected then
    { result := .error .communication, next := s, writes := [] }
  else if s.isBusy then
    { result := .error .deviceBusy, next := s, writes := [] }
  else
    { result := .ok ()
      next := { s with isBusy := true, currentResolve := true, currentReject := true,
                       receivedBuffer := [], commandTimeout := true }
      writes := [createFrame (createCommandBuffer cmd.code cmd.data)] }

/-! ## sendCommandWithRetry -/

/-- Outcome of a single `sendCommand` attempt, indexed by attempt number
through a function `Nat → AttemptOutcome`. -/
inductive AttemptOutcome where
  | success (response : List Nat)
  | failure (e : ChanError)
  deriving DecidableEq, Repr

/-- The retry guard: `sendCommandWithRetry` breaks out of its loop for
`DeviceBusyError` and `TimeoutError` and retries everything else. -/
def retriable (e : ChanError) : Bool :=
  match e with
  | .deviceBusy => false
  | .timeout => false
  | .communication => true

/-- The loop of `sendCommandWithRetry`
(`for (let attempt = 0; attempt <= maxRetries; attempt++)`), with the
loop counter split as `attempt` plus the number `remaining` of further
iterations the loop bound still allows (`remaining = maxRetries -
attempt`, so the loop condition `attempt <= maxRetries` holds for
exactly the iterations performed).  On a thrown error the loop breaks
when it is a `DeviceBusyError` or `TimeoutError`; otherwise it retries
while iterations remain; the last error is re-thrown.  Returns the final
outcome and the total number of `sendCommand` invocations (final attempt
index + 1). -/
def retryLoop (f : Nat → AttemptOutcome) (attempt remaining : Nat) :
    Except ChanError (List Nat) × Nat :=
  match f attempt with
  | .success r => (.ok r, attempt + 1)
  | .failure e =>
    if retriable e = false then (.error e, attempt + 1)
    else
      match remaining with
      | 0 => (.error e, attempt + 1)
      | r + 1 => retryLoop f (attempt + 1) r

/-- `sendCommandWithRetry(command, maxRetries)` with the sequence of
per-attempt channel outcomes abstracted as `f`: the loop starts at
attempt 0 with `maxRetries` further iterations allowed. -/
def sendCommandWithRetry (f : Nat → AttemptOutcome) (maxRetries : Nat) :
    Except ChanError (List Nat) × Nat :=
  retryLoop f 0 maxRetries

/-! ## FileTransfer.ts -/

/-- `CommandCode.DOWNLOAD_FILE`. -/
def DOWNLOAD_FILE : Nat := 0x06

/-- One chunk dispatch performed by `uploadFile`: the target filename,
the chunk bytes and the overwrite/append flag. -/
structure ChunkMsg where
  filename : List Char
  chunk : List Nat
  flag : Nat
  deriving DecidableEq, Repr

/-- The chunk sequence dispatched by `uploadFile(filename, content,
overwrite, {chunkSize})`, in dispatch order: a single chunk with flag
`overwrite ? 1 : 0` when `content.length <= chunkSize`, otherwise
`Math.ceil(content.length / chunkSize)` slices with flag 1 on chunk 0
and 0 afterwards.  `uploadFile` performs no filename validation before
dispatching.  `chunkSize` is nonzero in every call (a zero `options.chunkSize`
is falsy and replaced by the 256-byte default). -/
def uploadChunkMessages (filename : List Char) (content : List Nat)
    (overwrite : Bool) (chunkSize : Nat) : List ChunkMsg :=
  if content.length ≤ chunkSize then
    [⟨filename, content, if overwrite then 1 else 0⟩]
  else
    let totalChunks := (content.length + chunkSize - 1) / chunkSize
    (List.range totalChunks).map fun i =>
      ⟨filename, (content.drop (i * chunkSize)).take chunkSize,
        if i = 0 then 1 else 0⟩

/-- `Buffer.from(filename, 'utf8')` for the ASCII filenames the device
accepts: one byte per character. -/
def utf8Bytes (s : List Char) : List Nat := s.map Char.toNat

/-- The frame written for one chunk by `uploadSingleChunk`:
`createFrame(createCommandBuffer(DOWNLOAD_FILE, filename ++ [0x00] ++
[flag] ++ chunk))` (the command byte of the inner buffer is stripped and
re-added by the protocol handler). -/
def uploadSingleChunkFrame (filename : List Char) (chunk : List Nat) (flag : Nat) :
    List Nat :=
  createFrame (createCommandBuffer DOWNLOAD_FILE (utf8Bytes filename ++ [0x00, flag] ++ chunk))

/-- All frames `uploadFile` hands to the transport, in dispatch order. -/
def uploadFileFrames (filename : List Char) (content : List Nat)
    (overwrite : Bool) (chunkSize : Nat) : List (List Nat) :=
  (uploadChunkMessages filename content overwrite chunkSize).map fun m =>
    uploadSingleChunkFrame m.filename m.chunk m.flag

/-- The completion marker string `'done'`. -/
def doneMarker : List Char := ['d', 'o', 'n', 'e']

/-- JS `haystack.includes(needle)`: some suffix of the haystack starts
with the needle. -/
def includesSubstr (needle : List Char) : List Char → Bool
  | [] => needle.isEmpty
  | c :: rest => needle.isPrefixOf (c :: rest) || includesSubstr needle rest

/-- Outcome of the acknowledgment check at the end of
`uploadSingleChunk`. -/
inductive ChunkUploadResult where
  | ok
  | communicationError
  deriving DecidableEq, Repr

/-- The acknowledgment check of `uploadSingleChunk`: the chunk counts as
uploaded when `response.data.toString().includes('done')`, otherwise a
`CommunicationError` is thrown. -/
def uploadSingleChunkCheck (responseText : List Char) : ChunkUploadResult :=
  if includesSubstr doneMarker responseText then .ok else .communicationError

/-- The character class of the filename regex: ASCII letters, digits,
dot, underscore, slash and dash. -/
def isAllowedFilenameChar (c : Char) : Bool :=
  ('a' ≤ c && c ≤ 'z') || ('A' ≤ c && c ≤ 'Z') || ('0' ≤ c && c ≤ '9') ||
    c == '.' || c == '_' || c == '/' || c == '-'

/-- The anchored one-or-more regex test on the allowed character class:
nonempty and every character allowed. -/
def matchesFilenameRegex (s : List Char) : Bool :=
  !s.isEmpty && s.all isAllowedFilenameChar

/-- `FileTransferManager.validateFilename` (`valid` field): rejects
names longer than 28 characters, names failing the regex, and the bare
root path (`startsWith('/') && length === 1`). -/
def validateFilename (filename : List Char) : Bool :=
  if 28 < filename.length then false
  else if !matchesFilenameRegex filename then false
  else if filename.take 1 = ['/'] ∧ filename.length = 1 then false
  else true

/-! ## DeviceManager.ts: executeCode -/

/-- The `ExecutionResult` record, without the wall-clock fields
(`executionTime`, `timestamp`), which are real-time measurements outside
the functional model. -/
structure ExecutionResult where
  output : List Char
  error : Option (List Char)
  exitCode : Nat
  deriving DecidableEq, Repr

/-- `executeCode(code)` as a function of the outcome of the underlying
`sendCommand`: on a response, the response text with exit code 0 exactly
when it contains `'done'`; on any thrown error, an `ExecutionResult`
carrying the error's message, empty output and exit code 1 — the error
is not re-thrown. -/
def executeCode (sendResult : Except (List Char) (List Char)) : ExecutionResult :=
  match sendResult with
  | .ok output =>
      { output := output
        error := none
        exitCode := if includesSubstr doneMarker output then 0 else 1 }
  | .error msg =>
      { output := []
        error := some msg
        exitCode := 1 }

/-! ## Helper lemmas -/

/-- Every CRC table lookup is below 2^16. -/
theorem crcTable_getD_lt (i : Nat) : CRC_TABLE.getD i 0 < 2 ^ 16 := by
  rcases Nat.lt_or_ge i 16 with h | h
  · interval_cases i <;> decide
  · rw [List.getD_eq_default]
    · decide
    · simpa [CRC_TABLE] using h

/-- A right shift never increases a natural number. -/
theorem shiftRight_le_self (a n : Nat) : a >>> n ≤ a := by
  rw [Nat.shiftRight_eq_div_pow]
  exact Nat.div_le_self a (2 ^ n)

/-- One CRC step stays below 2^16. -/
theorem crcStep_lt (crc ch : Nat) (h : crc < 2 ^ 16) : crcStep crc ch < 2 ^ 16 := by
  unfold crcStep
  have h1 : crc >>> 4 < 2 ^ 16 :=
    Nat.lt_of_le_of_lt (shiftRight_le_self _ _) h
  have h2 := Nat.xor_lt_two_pow (crcTable_getD_lt ((ch ^^^ crc) &&& 15)) h1
  have h3 : (CRC_TABLE.getD ((ch ^^^ crc) &&& 15) 0 ^^^ crc >>> 4) >>> 4 < 2 ^ 16 :=
    Nat.lt_of_le_of_lt (shiftRight_le_self _ _) h2
  exact Nat.xor_lt_two_pow (crcTable_getD_lt _) h3

/-- The CRC of any byte list is below 2^16. -/
theorem calculateCrc_lt (data : List Nat) : calculateCrc data < 2 ^ 16 := by
  have general : ∀ (l : List Nat) (a : Nat), a < 2 ^ 16 → l.foldl crcStep a < 2 ^ 16 := by
    intro l
    induction l with
    | nil => intro a ha; simpa using ha
    | cons x xs ih =>
        intro a ha
        simpa using ih (crcStep a x) (crcStep_lt a x ha)
  exact general data 0xffff (by decide)

/-- Reassembling the two CRC bytes recovers the CRC. -/
theorem crc_recompose (c : Nat) (h : c < 2 ^ 16) :
    ((c >>> 8) % 256) <<< 8 ||| (c &&& 0xff) % 256 = c := by
  have hdiv : c >>> 8 = c / 256 := by
    simpa using Nat.shiftRight_eq_div_pow c 8
  have hmod : c &&& 0xff = c % 256 := by
    have := Nat.and_pow_two_sub_one_eq_mod c 8
    simpa using this
  have hdivlt : c / 256 < 256 := by omega
  have hmodlt : c % 256 < 256 := Nat.mod_lt _ (by omega)
  rw [hdiv, hmod, Nat.mod_eq_of_lt hdivlt, Nat.mod_eq_of_lt (Nat.mod_lt _ (by omega))]
  rw [Nat.shiftLeft_eq]
  have h256 : (256 : Nat) = 2 ^ 8 := by decide
  calc c / 256 * 2 ^ 8 ||| c % 256
      = 2 ^ 8 * (c / 256) ||| c % 256 := by ring_nf
    _ = 2 ^ 8 * (c / 256) + c % 256 := by
        rw [← Nat.mul_add_lt_is_or (by omega) (c / 256)]
    _ = c := by omega

/-- Decoding an encoded frame recovers the payload, its length and its
CRC, for any payload shorter than 256 bytes. -/
theorem parseFrame_createFrame (payload : List Nat) (hlen : payload.length < 256) :
    parseFrame (createFrame payload) =
      some { header := headerBytes
             length := payload.length
             command := payload.headD 0
             data := payload.drop 1
             crc := calculateCrc payload
             footer := footerBytes } := by
  have hm256 : payload.length % 256 = payload.length := Nat.mod_eq_of_lt hlen
  have h1 : createFrame payload =
      0xaa :: 0xab :: 0xaa :: payload.length :: (payload ++
        (calculateCrc payload >>> 8) % 256 :: (calculateCrc payload &&& 0xff) % 256 ::
          footerBytes) := by
    simp [createFrame, headerBytes, hm256]
  have h2 : createFrame payload =
      (0xaa :: 0xab :: 0xaa :: payload.length :: (payload ++
        [(calculateCrc payload >>> 8) % 256, (calculateCrc payload &&& 0xff) % 256])) ++
        footerBytes := by
    simp [h1]
  have h3 : createFrame payload =
      (0xaa :: 0xab :: 0xaa :: payload.length :: payload) ++
        ((calculateCrc payload >>> 8) % 256 :: (calculateCrc payload &&& 0xff) % 256 ::
          footerBytes) := by
    simp [h1]
  have hLen : (createFrame payload).length = payload.length + 9 := by
    rw [h1]
    simp [footerBytes]
  have htake : (createFrame payload).take 3 = headerBytes := by
    rw [h1]
    rfl
  have hfoot : (createFrame payload).drop ((createFrame payload).length - 3) = footerBytes := by
    rw [hLen, h2]
    refine List.drop_left' ?_
    simp only [List.length_cons, List.length_append, List.length_nil]
    omega
  have hComplete : isFrameComplete (createFrame payload) = true := by
    unfold isFrameComplete
    rw [htake, hfoot, hLen]
    rw [if_neg (by omega)]
    simp
  have hgetD3 : (createFrame payload).getD 3 0 = payload.length := by
    rw [h1]
    rfl
  have hdrop4 : (createFrame payload).drop 4 =
      payload ++ (calculateCrc payload >>> 8) % 256 ::
        (calculateCrc payload &&& 0xff) % 256 :: footerBytes := by
    rw [h1]
    rfl
  have hdata : bufSlice (createFrame payload) 4 (4 + payload.length) = payload := by
    unfold bufSlice
    rw [Nat.add_sub_cancel_left, hdrop4]
    exact List.take_left' rfl
  have hdropPay : (createFrame payload).drop (4 + payload.length) =
      (calculateCrc payload >>> 8) % 256 :: (calculateCrc payload &&& 0xff) % 256 ::
        footerBytes := by
    rw [h3]
    refine List.drop_left' ?_
    simp only [List.length_cons]
    omega
  have hhiGet : (createFrame payload).getD (4 + payload.length) 0 =
      (calculateCrc payload >>> 8) % 256 := by
    have h0 : (createFrame payload)[4 + payload.length + 0]? =
        some ((calculateCrc payload >>> 8) % 256) := by
      rw [← List.getElem?_drop, hdropPay]
      rfl
    rw [Nat.add_zero] at h0
    rw [List.getD_eq_getElem?_getD, h0]
    rfl
  have hloGet : (createFrame payload).getD (4 + payload.length + 1) 0 =
      (calculateCrc payload &&& 0xff) % 256 := by
    have h0 : (createFrame payload)[4 + payload.length + 1]? =
        some ((calculateCrc payload &&& 0xff) % 256) := by
      rw [← List.getElem?_drop, hdropPay]
      rfl
    rw [List.getD_eq_getElem?_getD, h0]
    rfl
  simp only [parseFrame, hComplete, Bool.not_true, hgetD3, hdata, hhiGet, hloGet,
    htake, hfoot]
  rw [crc_recompose (calculateCrc payload) (calculateCrc_lt payload)]
  simp

/-! ## Claim theorems -/

/-- Claim C1 (code evaluation): with a command pending (busy, resolver
and timer installed) and the inbound chunk a complete, CRC-valid frame
whose device status byte is 0, `onDataReceived` settles the caller's
promise zero times — `handleCommandSuccess` runs `clearCommandState`
(which clears `currentResolve`) before testing `currentResolve`, so the
resolution is skipped — although the channel state is cleared. -/
theorem pendingPromiseNeverResolved :
    (onDataReceived
        ⟨true, true, [], true, true, true⟩
        (createFrame (0 :: [100, 111, 110, 101]))).2 = [] ∧
    (onDataReceived
        ⟨true, true, [], true, true, true⟩
        (createFrame (0 :: [100, 111, 110, 101]))).1 =
      ⟨true, false, [], false, false, false⟩ := by
  decide

/-- Claim C2 (code evaluation): when the timeout timer fires with a
command pending, `handleCommandTimeout` rejects the caller's promise
zero times (never with `TimeoutError`) — `clearCommandState` clears
`currentReject` before `handleCommandError` tests it — while the channel
does return to idle and a subsequent `sendCommand` is accepted. -/
theorem timeoutNeverRejects :
    (handleCommandTimeout ⟨true, true, [], true, true, true⟩).2 = [] ∧
    (handleCommandTimeout ⟨true, true, [], true, true, true⟩).1.isBusy = false ∧
    (sendCommand (handleCommandTimeout ⟨true, true, [], true, true, true⟩).1
        ⟨2, []⟩).result = .ok () :=
  ⟨rfl, rfl, rfl⟩

/-- Claim C3 (code evaluation): `uploadFile` never invokes
`validateFilename`; for a 30-character ASCII filename the validator
reports invalid, yet `uploadFile` constructs and dispatches a chunk
frame for it. -/
theorem uploadFileSkipsValidation :
    validateFilename (List.replicate 30 'a') = false ∧
    uploadFileFrames (List.replicate 30 'a') [1, 2, 3] true 256 =
      [uploadSingleChunkFrame (List.replicate 30 'a') [1, 2, 3] 1] := by
  constructor
  · decide
  · rfl

/-- Claim C5: for every command code and data bytes whose frame payload
(command byte plus data) is shorter than 256 bytes, decoding the encoded
frame reproduces the command code and the data bytes exactly. -/
theorem frameRoundTrip (code : Nat) (data : List Nat) (hcode : code < 256)
    (_hbytes : ∀ b ∈ data, b < 256) (hlen : 1 + data.length < 256) :
    parseFrame (createFrame (createCommandBuffer code data)) =
      some { header := headerBytes
             length := data.length + 1
             command := code
             data := data
             crc := calculateCrc (createCommandBuffer code data)
             footer := footerBytes } := by
  have hcb : createCommandBuffer code data = code :: data := by
    simp [createCommandBuffer, Nat.mod_eq_of_lt hcode]
  rw [hcb]
  rw [parseFrame_createFrame (code :: data) (by simp; omega)]
  rfl

/-- Witness for claim C5: the frame for command 2 with payload bytes
104, 105 decodes back to them. -/
theorem frameRoundTrip_witness :
    parseFrame (createFrame (createCommandBuffer 2 [104, 105])) =
      some { header := headerBytes
             length := 3
             command := 2
             data := [104, 105]
             crc := calculateCrc (createCommandBuffer 2 [104, 105])
             footer := footerBytes } :=
  frameRoundTrip 2 [104, 105] (by decide) (by decide) (by decide)

/-- Claim C7: while the channel is connected and busy with a pending
command, a second `sendCommand` fails with `DeviceBusyError`, writes
nothing to the transport, and leaves the channel state (including the
pending command's handlers and accumulator) untouched. -/
theorem sendCommandWhileBusy (s : ChanState) (cmd : Command)
    (hconn : s.isConnected = true) (hbusy : s.isBusy = true) :
    sendCommand s cmd = { result := .error .deviceBusy, next := s, writes := [] } := by
  simp [sendCommand, hconn, hbusy]

/-- Witness for claim C7 at a concrete busy state. -/
theorem sendCommandWhileBusy_witness :
    sendCommand ⟨true, true, [1], true, true, true⟩ ⟨2, [3]⟩ =
      { result := .error .deviceBusy,
        next := ⟨true, true, [1], true, true, true⟩, writes := [] } :=
  sendCommandWhileBusy ⟨true, true, [1], true, true, true⟩ ⟨2, [3]⟩ rfl rfl

/-- A channel error survives the retry guard exactly when it is of the
`CommunicationError` kind. -/
theorem retriable_true_iff (e : ChanError) : retriable e = true ↔ e = .communication := by
  cases e <;> simp [retriable]

/-- The retry loop performs at most `remaining + 1` further attempts. -/
theorem retryLoop_attempts_le (f : Nat → AttemptOutcome) :
    ∀ remaining attempt,
      (retryLoop f attempt remaining).2 ≤ attempt + remaining + 1 := by
  intro remaining
  induction remaining with
  | zero =>
      intro attempt
      cases hfa : f attempt with
      | success resp => rw [retryLoop, hfa]
      | failure e =>
          rw [retryLoop, hfa]
          dsimp only
          by_cases hre : retriable e = false
          · rw [if_pos hre]
          · rw [if_neg hre]
  | succ r ih =>
      intro attempt
      cases hfa : f attempt with
      | success resp =>
          rw [retryLoop, hfa]
          dsimp only
          omega
      | failure e =>
          rw [retryLoop, hfa]
          dsimp only
          by_cases hre : retriable e = false
          · rw [if_pos hre]
            dsimp only
            omega
          · rw [if_neg hre]
            show (retryLoop f (attempt + 1) r).2 ≤ attempt + (r + 1) + 1
            have h := ih (attempt + 1)
            omega

/-- A `DeviceBusyError` or `TimeoutError` thrown at any loop iteration
ends the loop at once: the error propagates and no further attempt is
made. -/
theorem retryLoop_stops_on_nonretriable (f : Nat → AttemptOutcome)
    (attempt remaining : Nat) (e : ChanError)
    (he : retriable e = false) (hfa : f attempt = .failure e) :
    retryLoop f attempt remaining = (.error e, attempt + 1) := by
  rw [retryLoop, hfa]
  simp [he]

/-- Every attempt before the last one ended in a failure the loop
retried, which is exactly a `CommunicationError`-kind failure. -/
theorem retryLoop_intermediate_comm (f : Nat → AttemptOutcome) :
    ∀ remaining attempt k,
      (retryLoop f attempt remaining).2 = k + 1 →
      ∀ i, attempt ≤ i → i < k → f i = .failure .communication := by
  intro remaining
  induction remaining with
  | zero =>
      intro attempt k hk i hai hik
      rw [retryLoop] at hk
      rcases hfa : f attempt with r | e <;> rw [hfa] at hk
      · simp at hk; omega
      · simp only [] at hk
        split at hk <;> (simp at hk; omega)
  | succ r ih =>
      intro attempt k hk i hai hik
      rw [retryLoop] at hk
      rcases hfa : f attempt with resp | e <;> rw [hfa] at hk
      · simp at hk; omega
      · simp only [] at hk
        split at hk
        · simp at hk; omega
        · rename_i hret
          rcases Nat.eq_or_lt_of_le hai with rfl | hlt
          · rw [hfa]
            congr 1
            exact ((retriable_true_iff e).mp (by simpa using hret)).symm ▸ rfl
          · exact ih (attempt + 1) k hk i hlt hik

/-- Claim C4 (amended): `sendCommandWithRetry` with `maxRetries = m`
invokes `sendCommand` at most `m + 1` times in total (so 4 times for the
default `maxRetries = 3`, not 3); every retried failure is of the
`CommunicationError` kind; and a `DeviceBusyError` or `TimeoutError` at
any iteration is propagated immediately with no further attempt. -/
theorem sendCommandWithRetrySpec (f : Nat → AttemptOutcome) (m : Nat) :
    (sendCommandWithRetry f m).2 ≤ m + 1 ∧
    (∀ k, (sendCommandWithRetry f m).2 = k + 1 →
      ∀ i, i < k → f i = .failure .communication) ∧
    (∀ attempt remaining e, retriable e = false → f attempt = .failure e →
      retryLoop f attempt remaining = (.error e, attempt + 1)) := by
  refine ⟨?_, ?_, ?_⟩
  · simpa [sendCommandWithRetry] using retryLoop_attempts_le f m 0
  · intro k hk i hik
    exact retryLoop_intermediate_comm f m 0 k hk i (Nat.zero_le i) hik
  · intro attempt remaining e he hfa
    exact retryLoop_stops_on_nonretriable f attempt remaining e he hfa

/-- Witness for claim C4: a `DeviceBusyError` on the first attempt
propagates immediately after exactly one `sendCommand` invocation. -/
theorem sendCommandWithRetrySpec_witness :
    sendCommandWithRetry (fun _ => .failure .deviceBusy) 3 = (.error .deviceBusy, 1) := by
  have h := (sendCommandWithRetrySpec (fun _ => .failure .deviceBusy) 3).2.2 0 3
    .deviceBusy rfl rfl
  simpa [sendCommandWithRetry] using h

/-- Counterexample for claim C4 as stated: with `maxRetries = 3` and a
`CommunicationError` on every attempt, `sendCommand` is invoked 4 times,
not at most 3. -/
theorem sendCommandWithRetryCounterexample :
    ¬ ((sendCommandWithRetry (fun _ => AttemptOutcome.failure ChanError.communication) 3).2 ≤ 3) := by
  decide

/-- Splitting a list into `n` consecutive `C`-sized slices and
concatenating them recovers the list, provided `n * C` covers it. -/
theorem join_range_chunks (C : Nat) :
    ∀ (n : Nat) (l : List Nat), l.length ≤ n * C →
      ((List.range n).map fun i => (l.drop (i * C)).take C).flatten = l := by
  intro n
  induction n with
  | zero =>
      intro l h
      have hl : l = [] := List.eq_nil_of_length_eq_zero (by simpa using h)
      simp [hl]
  | succ n ih =>
      intro l h
      rw [List.range_succ_eq_map, List.map_cons, List.map_map, List.flatten_cons]
      have hfun : ((fun i => (l.drop (i * C)).take C) ∘ Nat.succ) =
          fun i => ((l.drop C).drop (i * C)).take C := by
        funext i
        simp only [Function.comp, Nat.succ_eq_add_one]
        rw [List.drop_drop]
        congr 2
        ring
      rw [hfun]
      have hlen : (l.drop C).length ≤ n * C := by
        rw [List.length_drop]
        have hnc : (n + 1) * C = n * C + C := by ring
        omega
      rw [ih (l.drop C) hlen]
      simp

/-- Claim C6 (amended): for any payload and chunk size at least 1
(uploads always run with a positive chunk size: a zero option falls back
to the 256-byte default), concatenating the chunks dispatched by
`uploadFile`, in dispatch order, reconstructs the payload exactly; for a
nonempty payload the number of chunks is `ceil(len/chunkSize)`, while an
empty payload is sent as one empty chunk (not zero chunks); with the
default `overwrite = true`, chunk 0 carries flag 1 (overwrite) and every
later chunk carries flag 0 (append). -/
theorem uploadChunksSpec (filename : List Char) (P : List Nat) (C : Nat) (hC : 1 ≤ C) :
    (((uploadChunkMessages filename P true C).map ChunkMsg.chunk).flatten = P) ∧
    (P ≠ [] → (uploadChunkMessages filename P true C).length = (P.length + C - 1) / C) ∧
    (P = [] → uploadChunkMessages filename P true C = [⟨filename, [], 1⟩]) ∧
    ((uploadChunkMessages filename P true C).map ChunkMsg.flag).headD 0 = 1 ∧
    (∀ x ∈ ((uploadChunkMessages filename P true C).map ChunkMsg.flag).tail, x = 0) := by
  by_cases hle : P.length ≤ C
  · have hmsgs : uploadChunkMessages filename P true C = [⟨filename, P, 1⟩] := by
      unfold uploadChunkMessages
      rw [if_pos hle]
      simp
    rw [hmsgs]
    refine ⟨by simp, ?_, ?_, by simp, by simp⟩
    · intro hne
      have hpos : 0 < P.length := List.length_pos.mpr hne
      have h1 : (P.length + C - 1) / C = 1 :=
        Nat.div_eq_of_lt_le (by omega) (by omega)
      simp [h1]
    · intro hP
      rw [hP]
  · have hgt : C < P.length := by omega
    set t := (P.length + C - 1) / C with ht
    have hmsgs : uploadChunkMessages filename P true C =
        (List.range t).map fun i =>
          ⟨filename, (P.drop (i * C)).take C, if i = 0 then 1 else 0⟩ := by
      unfold uploadChunkMessages
      rw [if_neg hle]
    have hcover : P.length ≤ t * C := by
      have hdm := Nat.div_add_mod (P.length + C - 1) C
      have hmlt : (P.length + C - 1) % C < C := Nat.mod_lt _ (by omega)
      have hcomm : C * t = t * C := Nat.mul_comm C t
      rw [← ht] at hdm
      omega
    have ht1 : 1 ≤ t := by
      rw [ht]
      exact (Nat.one_le_div_iff (by omega)).mpr (by omega)
    obtain ⟨tt, htt⟩ : ∃ tt, t = tt + 1 := ⟨t - 1, by omega⟩
    refine ⟨?_, ?_, ?_, ?_, ?_⟩
    · rw [hmsgs, List.map_map]
      have hj := join_range_chunks C t P hcover
      simpa [Function.comp] using hj
    · intro _
      rw [hmsgs]
      simp
    · intro hP
      rw [hP] at hgt
      simp at hgt
    · rw [hmsgs, htt, List.range_succ_eq_map]
      simp
    · rw [hmsgs, htt, List.range_succ_eq_map]
      simp only [List.map_cons, List.map_map, List.tail_cons]
      intro x hx
      simp only [List.mem_map, Function.comp, List.mem_range] at hx
      rcases hx with ⟨j, _, rfl⟩
      simp

/-- Witness for claim C6: three bytes at chunk size 2 reassemble to the
original payload. -/
theorem uploadChunksSpec_witness :
    (1 ≤ 2) ∧ ((uploadChunkMessages ['m'] [1, 2, 3] true 2).map ChunkMsg.chunk).flatten = [1, 2, 3] :=
  ⟨by decide, (uploadChunksSpec ['m'] [1, 2, 3] 2 (by decide)).1⟩

/-- Counterexample for claim C6 as stated: for the empty payload and
chunk size 1, `uploadFile` dispatches one (empty) chunk, while the
claimed chunk count `ceil(0 / 1)` is 0. -/
theorem uploadChunksCountCounterexample :
    (uploadChunkMessages ['m'] ([] : List Nat) true 1).length ≠
      (List.length ([] : List Nat) + 1 - 1) / 1 := by
  decide

/-- `includes` on lists of characters agrees with infix containment. -/
theorem includesSubstr_iff (needle hay : List Char) :
    includesSubstr needle hay = true ↔ needle <:+: hay := by
  induction hay with
  | nil => simp [includesSubstr]
  | cons c rest ih => simp [includesSubstr, List.infix_cons_iff, ih]

/-- Claim C9: `uploadSingleChunk` accepts a chunk acknowledgment exactly
when the response text contains `'done'` as a substring (anywhere, not
by exact equality), and throws a `CommunicationError` exactly when it
does not. -/
theorem uploadSingleChunkAckSpec (responseText : List Char) :
    (uploadSingleChunkCheck responseText = .ok ↔ doneMarker <:+: responseText) ∧
    (uploadSingleChunkCheck responseText = .communicationError ↔
      ¬ doneMarker <:+: responseText) := by
  have hiff := includesSubstr_iff doneMarker responseText
  cases h : includesSubstr doneMarker responseText with
  | false =>
      rw [h] at hiff
      simp only [Bool.false_eq_true, false_iff] at hiff
      simp [uploadSingleChunkCheck, h, hiff]
  | true =>
      rw [h] at hiff
      simp only [true_iff] at hiff
      simp [uploadSingleChunkCheck, h, hiff]

/-- A list equals `['/']` exactly when its first element is `'/'` and its
length is 1 (the `startsWith('/') && length === 1` test). -/
theorem take_one_length_one_iff (s : List Char) :
    (s.take 1 = ['/'] ∧ s.length = 1) ↔ s = ['/'] := by
  constructor
  · rintro ⟨h1, h2⟩
    cases s with
    | nil => simp at h2
    | cons a t =>
        cases t with
        | nil => simpa using h1
        | cons b u => simp at h2
  · rintro rfl
    exact ⟨rfl, rfl⟩

/-- Claim C10: `validateFilename` accepts exactly the nonempty names of
at most 28 characters drawn from the allowed class that are not the bare
root path; in particular the empty string and the one-character string
of a single slash are rejected. -/
theorem validateFilenameSpec :
    (∀ s : List Char, validateFilename s = true ↔
      s ≠ [] ∧ s.length ≤ 28 ∧ (∀ c ∈ s, isAllowedFilenameChar c = true) ∧ s ≠ ['/']) ∧
    validateFilename [] = false ∧ validateFilename ['/'] = false := by
  refine ⟨?_, by decide, by decide⟩
  intro s
  unfold validateFilename matchesFilenameRegex
  split_ifs with h1 h2 h3
  · simp only [false_iff]
    rintro ⟨-, hlen, -, -⟩
    omega
  · simp only [false_iff]
    rintro ⟨hne, -, hall, -⟩
    rw [Bool.not_eq_true'] at h2
    cases hemp : s.isEmpty with
    | true => exact hne (List.isEmpty_iff.mp hemp)
    | false =>
        rw [hemp] at h2
        simp only [Bool.not_false, Bool.true_and] at h2
        rcases List.all_eq_false.mp h2 with ⟨c, hc, hcall⟩
        exact absurd (hall c hc) (by simpa using hcall)
  · simp only [false_iff]
    rintro ⟨-, -, -, hne⟩
    exact hne ((take_one_length_one_iff s).mp h3)
  · simp only [true_iff]
    have hX : (!s.isEmpty && s.all isAllowedFilenameChar) = true := by
      cases hX0 : (!s.isEmpty && s.all isAllowedFilenameChar) with
      | true => rfl
      | false => exact absurd (by simp [hX0]) h2
    simp only [Bool.and_eq_true, Bool.not_eq_true', List.all_eq_true] at hX
    refine ⟨?_, by omega, hX.2, ?_⟩
    · intro hnil
      rw [hnil] at hX
      simp at hX
    · intro hroot
      exact h3 ((take_one_length_one_iff s).mpr hroot)

/-- Claim C8: `executeCode` maps every error thrown by the underlying
`sendCommand` to an `ExecutionResult` with empty output, exit code 1 and
the error's message in the `error` field, instead of propagating the
exception. -/
theorem executeCode_error_mapped (msg : List Char) :
    executeCode (.error msg) = { output := [], error := some msg, exitCode := 1 } :=
  rfl

end M5Stack
